import Mathlib

/-!
Verification development for the SSD1306 I2C OLED driver (`src/ssd1306.c`).

The driver state (`struct ssd1306_dev_t`) is embedded shallowly: the
framebuffer is a byte function `Nat → Nat` (bytes kept below 256), the
dirty-region tracker is four `uint8_t` bounds plus a flag, and the text
engine carries the cursor, scale factors and wrap flag.  The panel
dimensions `W`/`H` come from the configuration and are passed to every
operation, mirroring `handle->config.screen_width/height`.  Fallible I2C
steps are abstracted by Boolean outcome oracles; the transactions put on
the bus are returned explicitly so that claims about bus traffic can be
stated.
-/

set_option maxRecDepth 100000

namespace SSD1306


/-- The three-valued `ssd1306_color_t`: OLED_COLOR_BLACK, OLED_COLOR_WHITE,
OLED_COLOR_INVERT. -/
inductive Color where
  | black
  | white
  | invert
deriving DecidableEq

/-- Mutable driver state of `struct ssd1306_dev_t`: framebuffer bytes,
partial-update (dirty region) state, and graphics state.  The four dirty
bounds are `uint8_t` in C; assignments into them are truncated mod 256 in
the operations below. -/
structure DevState where
  buffer : Nat → Nat
  needs_update : Bool
  min_page : Nat
  max_page : Nat
  min_col : Nat
  max_col : Nat
  cursor_x : Int
  cursor_y : Int
  textsize_x : Nat
  textsize_y : Nat
  textcolor : Color
  textbgcolor : Color
  wrap : Bool

/-- `handle->buffer_size = (screen_width * screen_height) / 8` as computed in
`ssd1306_create`. -/
def bufSize (W H : Nat) : Nat := W * H / 8

/-- `_ssd1306_reset_dirty_area`: clear the needs-update flag and set the
bounds to inverted sentinel values (`min_col = width`, `max_col = 0`,
`min_page = height / 8`, `max_page = 0`); the stores are into `uint8_t`
fields. -/
def resetDirtyArea (W H : Nat) (s : DevState) : DevState :=
  { s with
    needs_update := false
    min_col := W % 256
    max_col := 0
    min_page := (H / 8) % 256
    max_page := 0 }

/-- `_ssd1306_mark_dirty`: ignore rectangles completely off screen, clip to
the screen, convert the y-range to pages with `>> 3`, grow the tracked
rectangle and set the needs-update flag. -/
def markDirty (W H : Nat) (x y w h : Int) (s : DevState) : DevState :=
  if x ≥ (W : Int) ∨ y ≥ (H : Int) ∨ x + w ≤ 0 ∨ y + h ≤ 0 then s
  else
    let x1 : Int := if x > 0 then x else 0
    let y1 : Int := if y > 0 then y else 0
    let x2 : Int := if x + w - 1 < (W : Int) then x + w - 1 else (W : Int) - 1
    let y2 : Int := if y + h - 1 < (H : Int) then y + h - 1 else (H : Int) - 1
    let page1 : Nat := (y1 / 8).toNat % 256
    let page2 : Nat := (y2 / 8).toNat % 256
    { s with
      min_col := if x1 < (s.min_col : Int) then x1.toNat % 256 else s.min_col
      max_col := if x2 > (s.max_col : Int) then x2.toNat % 256 else s.max_col
      min_page := if page1 < s.min_page then page1 else s.min_page
      max_page := if page2 > s.max_page then page2 else s.max_page
      needs_update := true }

/-- Graphics defaults established by `ssd1306_create`: the handle is zeroed
by `calloc`, then cursor `(0,0)`, text size `1 × 1`, white-on-black text and
wrapping enabled are assigned. -/
def baseState : DevState :=
  { buffer := fun _ => 0
    needs_update := false
    min_page := 0
    max_page := 0
    min_col := 0
    max_col := 0
    cursor_x := 0
    cursor_y := 0
    textsize_x := 1
    textsize_y := 1
    textcolor := Color.white
    textbgcolor := Color.black
    wrap := true }

/-- Dirty-tracker states reachable from a reset state by any sequence of
`_ssd1306_mark_dirty` calls with positive width and height and
`_ssd1306_reset_dirty_area` calls. -/
inductive DirtyReach (W H : Nat) : DevState → Prop where
  | base (s : DevState) : DirtyReach W H (resetDirtyArea W H s)
  | mark (x y w h : Int) (hw : 1 ≤ w) (hh : 1 ≤ h) {s : DevState} :
      DirtyReach W H s → DirtyReach W H (markDirty W H x y w h s)
  | reset {s : DevState} :
      DirtyReach W H s → DirtyReach W H (resetDirtyArea W H s)

/-- One I2C transaction as assembled by the driver: either a command stream
(control byte `0x00` followed by the command bytes) or a data stream
(control byte `0x40`) streaming the framebuffer rows of the given
addressing window. -/
inductive Txn where
  | cmd (bytes : List Nat)
  | data (minCol maxCol minPage maxPage : Nat)
deriving DecidableEq

/-- Addressing windows of the data transactions in a transaction list. -/
def dataWindows : List Txn → List (Nat × Nat × Nat × Nat)
  | [] => []
  | Txn.cmd _ :: rest => dataWindows rest
  | Txn.data a b c d :: rest => (a, b, c, d) :: dataWindows rest

/-- `ssd1306_update_screen`: return success immediately when nothing needs
updating; otherwise send the column/page window command
(`0x21 min_col max_col 0x22 min_page max_page`), then build and send the
data transaction for exactly that window, then reset the dirty area
(the reset in the source is unconditional) and return the data result.
The three Booleans are the outcomes of the fallible environment steps in
program order: the window command transaction (`_ssd1306_send_cmd_list` as
a whole), the heap allocation of the data I2C link, and the data
transaction (`i2c_master_cmd_begin`).  Returns the `esp_err_t` result as a
Bool (`true` = `ESP_OK`), the new state, and the transactions issued on the
bus. -/
def updateScreen (W H : Nat) (s : DevState) (cmdOk allocOk dataOk : Bool) :
    Bool × DevState × List Txn :=
  if s.needs_update = false then (true, s, [])
  else
    let cmdT := Txn.cmd [0x21, s.min_col, s.max_col, 0x22, s.min_page, s.max_page]
    if cmdOk = false then (false, s, [cmdT])
    else if allocOk = false then (false, s, [cmdT])
    else
      (dataOk, resetDirtyArea W H s,
        [cmdT, Txn.data s.min_col s.max_col s.min_page s.max_page])

/-- Concrete DIRTY state used as failing input for C1: the dirty window is
columns [10,54], pages [1,5]. -/
def dirtyDemoState : DevState :=
  { baseState with
    needs_update := true
    min_col := 10
    max_col := 54
    min_page := 1
    max_page := 5 }

/-- Byte-level bit write shared by the drawing primitives: set, clear or
toggle `1 << bitPos` in buffer byte `index`.  The driver clears through
`buffer[index] &= ~(1 << bit_pos)`, which on the 8-bit store equals masking
with `255 ^^^ (1 <<< bit_pos)`. -/
def writeByteBit (index bitPos : Nat) (color : Color) (buf : Nat → Nat) : Nat → Nat :=
  fun i =>
    if i = index then
      match color with
      | Color.white => buf index ||| (1 <<< bitPos)
      | Color.black => buf index &&& (255 ^^^ (1 <<< bitPos))
      | Color.invert => buf index ^^^ (1 <<< bitPos)
    else buf i

/-- Framebuffer bit of pixel `(x, y)`, via the packed addressing
`index = x + (y >> 3) * width`, `bit = y & 7` used throughout the driver. -/
def pixelAt (W : Nat) (buf : Nat → Nat) (x y : Nat) : Bool :=
  Nat.testBit (buf (x + y / 8 * W)) (y % 8)

/-- `ssd1306_draw_pixel`: clip to the screen, compute
`index = x + (y >> 3) * screen_width` and `bit_pos = y & 0x07`, apply the
color operation to that byte, and mark the single-pixel extent dirty. -/
def drawPixel (W H : Nat) (x y : Int) (color : Color) (s : DevState) : DevState :=
  if x < 0 ∨ x ≥ (W : Int) ∨ y < 0 ∨ y ≥ (H : Int) then s
  else
    markDirty W H x y 1 1
      { s with buffer := writeByteBit (x.toNat + y.toNat / 8 * W) (y.toNat % 8) color s.buffer }

/-- `ssd1306_draw_fast_vline`: clip, normalize a negative height, mark the
run dirty once, then apply the bit operation down the column. -/
def drawFastVline (W H : Nat) (x y h : Int) (color : Color) (s : DevState) : DevState :=
  if x < 0 ∨ x ≥ (W : Int) ∨ h = 0 then s
  else
    let y0 : Int := if h < 0 then y + h else y
    let h0 : Int := if h < 0 then -h else h
    if y0 ≥ (H : Int) then s
    else
      let yEnd : Int := if y0 + h0 > (H : Int) then (H : Int) else y0 + h0
      let y1 : Int := if y0 < 0 then 0 else y0
      let s1 := markDirty W H x y1 1 (yEnd - y1) s
      { s1 with
        buffer := (List.range (yEnd - y1).toNat).foldl
          (fun buf k =>
            writeByteBit (x.toNat + (y1.toNat + k) / 8 * W) ((y1.toNat + k) % 8) color buf)
          s1.buffer }

/-- `ssd1306_fill_rect`: reject non-positive sizes and fully off-screen
rectangles, clip horizontally, mark the clipped area dirty once, then draw
one fast vertical line per column. -/
def fillRect (W H : Nat) (x y w h : Int) (color : Color) (s : DevState) : DevState :=
  if w ≤ 0 ∨ h ≤ 0 then s
  else if x ≥ (W : Int) ∨ y ≥ (H : Int) then s
  else if x + w < 0 ∨ y + h < 0 then s
  else
    let xEnd : Int := if x + w > (W : Int) then (W : Int) else x + w
    let x0 : Int := if x < 0 then 0 else x
    let s1 := markDirty W H x0 y (xEnd - x0) h s
    (List.range (xEnd - x0).toNat).foldl
      (fun st (k : Nat) => drawFastVline W H (x0 + (k : Int)) y h color st) s1

/-- `ssd1306_fill_buffer`: memset every framebuffer byte to `0x00` for
BLACK and to `0xFF` for any other color, then mark the whole screen
dirty. -/
def fillBuffer (W H : Nat) (color : Color) (s : DevState) : DevState :=
  markDirty W H 0 0 (W : Int) (H : Int)
    { s with
      buffer := fun i =>
        if i < bufSize W H then (if color = Color.black then 0x00 else 0xFF)
        else s.buffer i }

/-- `ssd1306_clear_buffer`: fill with BLACK. -/
def clearBuffer (W H : Nat) (s : DevState) : DevState :=
  fillBuffer W H Color.black s

/-- Device state after a successful `ssd1306_create`: zeroed handle with
graphics defaults, dirty area reset, buffer cleared, and one initial
successful screen update. -/
def initState (W H : Nat) : DevState :=
  (updateScreen W H (clearBuffer W H (resetDirtyArea W H baseState)) true true true).2.1

/-- Scenario A of the specification, on a 128×64 panel starting from a
freshly created (CLEAN) device: `fill(OFF)`, then
`fill_rect(10, 10, 45, 35, ON)`, then flush with a fully successful bus. -/
def scenarioA : Bool × DevState × List Txn :=
  updateScreen 128 64
    (fillRect 128 64 10 10 45 35 Color.white
      (fillBuffer 128 64 Color.black (initState 128 64))) true true true

/-- Framebuffer with every pixel set, used as the C7 failing input. -/
def allOnState : DevState :=
  { baseState with buffer := fun _ => 255 }

/-- Retry loop of `_ssd1306_send_cmd_list`: `ret` starts as `ESP_FAIL`; the
loop makes up to `fuel` attempts starting at attempt index `i`, breaking on
the first success.  `res i` is the outcome of `i2c_master_cmd_begin` on
attempt `i`.  Returns the final `ret` (`true` = `ESP_OK`) and the number of
attempts made. -/
def retryGo (res : Nat → Bool) : Nat → Nat → Bool × Nat
  | 0, i => (false, i)
  | Nat.succ fuel, i => if res i = true then (true, i + 1) else retryGo res fuel (i + 1)

/-- `_ssd1306_send_cmd_list` makes `for (retry = 0; retry < 3; retry++)`
attempts of the framed command transaction. -/
def sendCmdListRetry (res : Nat → Bool) : Bool × Nat := retryGo res 3 0

/-- `ssd1306_set_text_size_custom`: store the scale factors, replacing zero
by 1 (the arguments are `uint8_t`, hence the mod-256 at the boundary). -/
def setTextSizeCustom (sx sy : Nat) (s : DevState) : DevState :=
  { s with
    textsize_x := if sx % 256 > 0 then sx % 256 else 1
    textsize_y := if sy % 256 > 0 then sy % 256 else 1 }

/-- `ssd1306_set_text_size`: uniform scale via the custom setter. -/
def setTextSize (n : Nat) (s : DevState) : DevState := setTextSizeCustom n n s

/-- `ssd1306_set_cursor`. -/
def setCursor (x y : Int) (s : DevState) : DevState :=
  { s with
    cursor_x := x
    cursor_y := y }

/-- `ssd1306_set_text_wrap`. -/
def setTextWrap (b : Bool) (s : DevState) : DevState :=
  { s with wrap := b }

/-- `ssd1306_set_text_color_bg`. -/
def setTextColorBg (c bg : Color) (s : DevState) : DevState :=
  { s with
    textcolor := c
    textbgcolor := bg }

/-- `ssd1306_set_text_color`: transparent background, encoded as equal
foreground and background colors. -/
def setTextColor (c : Color) (s : DevState) : DevState := setTextColorBg c c s

/-- Source pixel traversal order of the general shift path: `src_y` outer,
`src_x` inner. -/
def pixelPairs (W H : Nat) : List (Nat × Nat) :=
  (List.range H).flatMap fun y => (List.range W).map fun x => (x, y)

/-- The destination-bit assignment `buffer[dst_idx] |= (1 << dst_bit)` of
the general shift path. -/
def setBitAt (idx bit : Nat) (buf : Nat → Nat) : Nat → Nat :=
  fun i => if i = idx then buf idx ||| (1 <<< bit) else buf i

/-- Two's-complement truncation to `int16_t`: the value stored when an
`int`-valued expression is assigned to an `int16_t` object. -/
def wrap16 (z : Int) : Int := (z + 32768) % 65536 - 32768

/-- `z` fits in `int16_t` (assigning it does not truncate). -/
def inI16 (z : Int) : Bool := decide (-32768 ≤ z ∧ z ≤ 32767)

/-- Destination coordinate of one shifted pixel along one axis: the sum is
stored into `int16_t dst_x` (truncating to 16 bits) and, when wrapping, the
C double-modulo construct `((v % n) + n) % n` is applied (`Int.tmod` is the
C `%`). -/
def dstOf (n : Nat) (d : Int) (wrapF : Bool) (v : Nat) : Int :=
  let t := wrap16 ((v : Int) + d)
  if wrapF then (Int.tmod t n + n).tmod n else t

/-- One iteration of the general shift remap: if the source pixel is set in
the scratch copy, compute its destination and, when it lands on screen, OR
the destination bit into the live buffer. -/
def shiftPixelStep (W H : Nat) (dx dy : Int) (wrapF : Bool) (src : Nat → Nat)
    (buf : Nat → Nat) (p : Nat × Nat) : Nat → Nat :=
  if (src (p.1 + p.2 / 8 * W) >>> (p.2 % 8)) &&& 1 = 1 then
    if 0 ≤ dstOf W dx wrapF p.1 ∧ dstOf W dx wrapF p.1 < (W : Int) ∧
        0 ≤ dstOf H dy wrapF p.2 ∧ dstOf H dy wrapF p.2 < (H : Int) then
      setBitAt ((dstOf W dx wrapF p.1).toNat + (dstOf H dy wrapF p.2).toNat / 8 * W)
        ((dstOf H dy wrapF p.2).toNat % 8) buf
    else buf
  else buf

/-- General shift path on the buffer: copy to the scratch (the `src`
argument), clear the live bytes, then remap every source pixel. -/
def shiftGeneral (W H : Nat) (dx dy : Int) (wrapF : Bool) (src : Nat → Nat) : Nat → Nat :=
  (pixelPairs W H).foldl (shiftPixelStep W H dx dy wrapF src)
    (fun i => if i < bufSize W H then 0 else src i)

/-- `ssd1306_shift_framebuffer`: no-op for a zero shift; fast block-move
path when `dy = 0` and no wrap (memmove plus zero fill, clearing the whole
buffer when the magnitude reaches the width); otherwise the general
pixel-by-pixel remap through a scratch copy, which bails out when the
framebuffer exceeds the 1024-byte static scratch buffer.  Both paths mark
the whole screen dirty. -/
def shiftFramebuffer (W H : Nat) (dx dy : Int) (wrapF : Bool) (s : DevState) : DevState :=
  if dx = 0 ∧ dy = 0 then s
  else if dy = 0 ∧ wrapF = false then
    let size := bufSize W H
    let sAbs := dx.natAbs
    let fast : Nat → Nat :=
      if (sAbs : Int) < (W : Int) then
        if dx > 0 then
          fun i => if i < size then (if i < sAbs then 0 else s.buffer (i - sAbs)) else s.buffer i
        else
          fun i => if i < size then (if i < size - sAbs then s.buffer (i + sAbs) else 0) else s.buffer i
      else
        fun i => if i < size then 0 else s.buffer i
    markDirty W H 0 0 (W : Int) (H : Int) { s with buffer := fast }
  else if 1024 < bufSize W H then s
  else
    markDirty W H 0 0 (W : Int) (H : Int)
      { s with buffer := shiftGeneral W H dx dy wrapF s.buffer }

/-- Public operations of the modeled API surface, for reachability
statements over device states. -/
inductive Op where
  | setTextSize (n : Nat)
  | setTextSizeCustom (nx ny : Nat)
  | setCursor (x y : Int)
  | setTextWrap (b : Bool)
  | setTextColor (c : Color)
  | setTextColorBg (c bg : Color)
  | fill (c : Color)
  | clear
  | pixel (x y : Int) (c : Color)
  | vline (x y h : Int) (c : Color)
  | rect (x y w h : Int) (c : Color)
  | shift (dx dy : Int) (wr : Bool)
  | mark (x y w h : Int)
  | resetDirty
  | update (cmdOk allocOk dataOk : Bool)

/-- Interpretation of one operation on the device state. -/
def applyOp (W H : Nat) (s : DevState) : Op → DevState
  | Op.setTextSize n => setTextSize n s
  | Op.setTextSizeCustom nx ny => setTextSizeCustom nx ny s
  | Op.setCursor x y => setCursor x y s
  | Op.setTextWrap b => setTextWrap b s
  | Op.setTextColor c => setTextColor c s
  | Op.setTextColorBg c bg => setTextColorBg c bg s
  | Op.fill c => fillBuffer W H c s
  | Op.clear => clearBuffer W H s
  | Op.pixel x y c => drawPixel W H x y c s
  | Op.vline x y h c => drawFastVline W H x y h c s
  | Op.rect x y w h c => fillRect W H x y w h c s
  | Op.shift dx dy wr => shiftFramebuffer W H dx dy wr s
  | Op.mark x y w h => markDirty W H x y w h s
  | Op.resetDirty => resetDirtyArea W H s
  | Op.update c a d => (updateScreen W H s c a d).2.1

/-- Glyph metrics of `GFXglyph` (the offsets are signed `int8_t`). -/
structure GFXglyph where
  bitmapOffset : Nat
  width : Nat
  height : Nat
  xAdvance : Nat
  xOffset : Int
  yOffset : Int

/-- Font data of `GFXfont`; `glyph` is indexed by `c - first`. -/
structure GFXfont where
  bitmap : Nat → Nat
  glyph : Nat → GFXglyph
  first : Nat
  last : Nat
  yAdvance : Nat

/-- Running min/max envelope of glyph rectangle corners. -/
structure Envelope where
  minx : Int
  miny : Int
  maxx : Int
  maxy : Int
deriving DecidableEq

/-- Scaled bounding rectangle of one drawn glyph, as corner coordinates:
`ssd1306_draw_char` marks exactly this rectangle
(`x + xo*sx, y + yo*sy, w*sx, h*sy`) dirty and draws inside it. -/
structure GlyphBox where
  x1 : Int
  y1 : Int
  x2 : Int
  y2 : Int
deriving DecidableEq

/-- The four min/max `if` updates at the end of `_ssd1306_char_bounds`,
shared with the envelope of drawn glyph boxes. -/
def envExtend (e : Envelope) (b : GlyphBox) : Envelope :=
  { minx := if b.x1 < e.minx then b.x1 else e.minx
    miny := if b.y1 < e.miny then b.y1 else e.miny
    maxx := if b.x2 > e.maxx then b.x2 else e.maxx
    maxy := if b.y2 > e.maxy then b.y2 else e.maxy }

/-- Envelope of a list of glyph boxes. -/
def boxesEnvelope (e : Envelope) (bs : List GlyphBox) : Envelope :=
  bs.foldl envExtend e

/-- Cursor and envelope accumulator threaded through
`_ssd1306_char_bounds` by `ssd1306_get_text_bounds`. -/
structure BoundsAcc where
  x : Int
  y : Int
  env : Envelope
deriving DecidableEq

/-- `_ssd1306_char_bounds`: newline resets x to 0 and advances y by
`textsize_y * yAdvance`; carriage return is ignored; an in-range character
first wraps when enabled and `x + (xOffset + width) * textsize_x` exceeds
the screen width, then extends the envelope by the scaled glyph rectangle
and advances x by the scaled advance.  The cursor (`int16_t *x, *y`) and
the corner locals (`int16_t x1, y1, x2, y2`) truncate to 16 bits on every
store. -/
def charBounds (W sx sy : Nat) (wrapF : Bool) (font : GFXfont)
    (c : Nat) (a : BoundsAcc) : BoundsAcc :=
  if c = 10 then
    { a with
      x := 0
      y := wrap16 (a.y + (sy : Int) * (font.yAdvance : Int)) }
  else if c = 13 then a
  else if font.first ≤ c ∧ c ≤ font.last then
    let g := font.glyph (c - font.first)
    let q : Int × Int :=
      if wrapF = true ∧ a.x + (g.xOffset + (g.width : Int)) * (sx : Int) > (W : Int)
      then (0, wrap16 (a.y + (sy : Int) * (font.yAdvance : Int)))
      else (a.x, a.y)
    let x1 := wrap16 (q.1 + g.xOffset * (sx : Int))
    let y1 := wrap16 (q.2 + g.yOffset * (sy : Int))
    { x := wrap16 (q.1 + (g.xAdvance : Int) * (sx : Int))
      y := q.2
      env := envExtend a.env
        ⟨x1, y1,
          wrap16 (x1 + (g.width : Int) * (sx : Int) - 1),
          wrap16 (y1 + (g.height : Int) * (sy : Int) - 1)⟩ }
  else a

/-- Loop of `ssd1306_get_text_bounds` over the string. -/
def boundsRun (W sx sy : Nat) (wrapF : Bool) (font : GFXfont) :
    List Nat → BoundsAcc → BoundsAcc
  | [], a => a
  | c :: rest, a => boundsRun W sx sy wrapF font rest (charBounds W sx sy wrapF font c a)

/-- `ssd1306_get_text_bounds`: run the per-character bounds from the given
cursor with the envelope initialized to the inverted sentinels
(`minx = screen_width`, `miny = screen_height`, `maxx = maxy = -1`) and
convert the envelope to origin plus extent. -/
def getTextBounds (W H sx sy : Nat) (wrapF : Bool) (font : GFXfont)
    (str : List Nat) (x y : Int) : Int × Int × Int × Int :=
  let r := boundsRun W sx sy wrapF font str ⟨x, y, ⟨(W : Int), (H : Int), -1, -1⟩⟩
  ((if r.env.maxx ≥ r.env.minx then r.env.minx else x),
    (if r.env.maxy ≥ r.env.miny then r.env.miny else y),
    (if r.env.maxx ≥ r.env.minx then r.env.maxx - r.env.minx + 1 else 0),
    (if r.env.maxy ≥ r.env.miny then r.env.maxy - r.env.miny + 1 else 0))

/-- Text cursor of the write path. -/
structure TextCursor where
  x : Int
  y : Int
deriving DecidableEq

/-- `ssd1306_write` for one character, tracking the cursor and the scaled
glyph rectangle handed to `ssd1306_draw_char` (none when the glyph has zero
width or height — `draw_char` returns before drawing or marking then).
Mirrors the source order: newline / carriage return, font range check, the
one-time origin auto-adjustment (`cursor_y = -yOffset + 1` when the cursor
is at `(0,0)` and the glyph extends above the baseline), the wrap test
`cursor_x + textsize_x * (xOffset + width) > screen_width`, the draw, and
the advance.  The cursor fields are `int16_t` and truncate on every store,
as do the `int16_t` parameters of `_ssd1306_mark_dirty`, which receives
`x + xOffset*size_x, y + yOffset*size_y, width*size_x, height*size_y`. -/
def writeCharStep (W sx sy : Nat) (wrapF : Bool) (font : GFXfont)
    (c : Nat) (p : TextCursor) : TextCursor × Option GlyphBox :=
  if c = 10 then
    (⟨0, wrap16 (p.y + (sy : Int) * (font.yAdvance : Int))⟩, none)
  else if c = 13 then (p, none)
  else if font.first ≤ c ∧ c ≤ font.last then
    let g := font.glyph (c - font.first)
    let cy : Int :=
      if p.x = 0 ∧ p.y = 0 ∧ g.yOffset < 0 then wrap16 (-g.yOffset + 1) else p.y
    let q : Int × Int :=
      if wrapF = true ∧ p.x + (sx : Int) * (g.xOffset + (g.width : Int)) > (W : Int)
      then (0, wrap16 (cy + (sy : Int) * (font.yAdvance : Int)))
      else (p.x, cy)
    let box : Option GlyphBox :=
      if g.width = 0 ∨ g.height = 0 then none
      else
        let bx1 := wrap16 (q.1 + g.xOffset * (sx : Int))
        let by1 := wrap16 (q.2 + g.yOffset * (sy : Int))
        some ⟨bx1, by1,
          bx1 + wrap16 ((g.width : Int) * (sx : Int)) - 1,
          by1 + wrap16 ((g.height : Int) * (sy : Int)) - 1⟩
    (⟨wrap16 (q.1 + (g.xAdvance : Int) * (sx : Int)), q.2⟩, box)
  else (p, none)

/-- `ssd1306_print`: `ssd1306_write` for each character in order, collecting
the glyph rectangles that are drawn. -/
def writeRun (W sx sy : Nat) (wrapF : Bool) (font : GFXfont) :
    List Nat → TextCursor → TextCursor × List GlyphBox
  | [], p => (p, [])
  | c :: rest, p =>
    let r := writeCharStep W sx sy wrapF font c p
    let rr := writeRun W sx sy wrapF font rest r.1
    (rr.1, r.2.toList ++ rr.2)

/-- No `int16_t` store truncates while processing one character from the
cursor in `a`: the advanced y (newline or wrap), the four scaled corner
coordinates, the scaled glyph extents handed to `_ssd1306_mark_dirty`, and
the advanced x all fit in 16 bits. -/
def charFits (W sx sy : Nat) (wrapF : Bool) (font : GFXfont)
    (c : Nat) (a : BoundsAcc) : Bool :=
  if c = 10 then inI16 (a.y + (sy : Int) * (font.yAdvance : Int))
  else if c = 13 then true
  else if font.first ≤ c ∧ c ≤ font.last then
    let g := font.glyph (c - font.first)
    let q : Int × Int :=
      if wrapF = true ∧ a.x + (g.xOffset + (g.width : Int)) * (sx : Int) > (W : Int)
      then (0, a.y + (sy : Int) * (font.yAdvance : Int))
      else (a.x, a.y)
    inI16 q.2 &&
    inI16 (q.1 + g.xOffset * (sx : Int)) &&
    inI16 (q.2 + g.yOffset * (sy : Int)) &&
    inI16 (q.1 + g.xOffset * (sx : Int) + (g.width : Int) * (sx : Int) - 1) &&
    inI16 (q.2 + g.yOffset * (sy : Int) + (g.height : Int) * (sy : Int) - 1) &&
    inI16 ((g.width : Int) * (sx : Int)) &&
    inI16 ((g.height : Int) * (sy : Int)) &&
    inI16 (q.1 + (g.xAdvance : Int) * (sx : Int))
  else true

/-- The whole measured run is free of 16-bit truncation: `charFits` holds
at every character, along the cursor trace of `_ssd1306_char_bounds`. -/
def runFits (W sx sy : Nat) (wrapF : Bool) (font : GFXfont) :
    List Nat → BoundsAcc → Bool
  | [], _ => true
  | c :: rest, a =>
    charFits W sx sy wrapF font c a &&
      runFits W sx sy wrapF font rest (charBounds W sx sy wrapF font c a)

/-- Single-glyph font used in the C3 counterexample: one character `A`
(code 65) of width 3, height 4, advance 5, `xOffset 0`, `yOffset -3`, line
advance 10. -/
def cexFont : GFXfont :=
  { bitmap := fun _ => 255
    glyph := fun _ =>
      { bitmapOffset := 0
        width := 3
        height := 4
        xAdvance := 5
        xOffset := 0
        yOffset := -3 }
    first := 65
    last := 65
    yAdvance := 10 }

/-- Hit predicate of one remap iteration: the source pixel is set, its
destination lands on screen, and the destination byte and bit are exactly
`(i, b)`. -/
def stepHits (W H : Nat) (dx dy : Int) (wrapF : Bool) (src : Nat → Nat)
    (p : Nat × Nat) (i b : Nat) : Prop :=
  ((src (p.1 + p.2 / 8 * W) >>> (p.2 % 8)) &&& 1 = 1) ∧
  ((0 ≤ dstOf W dx wrapF p.1 ∧ dstOf W dx wrapF p.1 < (W : Int) ∧
      0 ≤ dstOf H dy wrapF p.2 ∧ dstOf H dy wrapF p.2 < (H : Int)) ∧
    i = (dstOf W dx wrapF p.1).toNat + (dstOf H dy wrapF p.2).toNat / 8 * W ∧
    b = (dstOf H dy wrapF p.2).toNat % 8)

def roundtripDemo : DevState :=
  { baseState with buffer := fun i => if i = 0 then 170 else 0 }

/-- 96x16 device state with exactly pixel (18, 0) set (byte 18, bit 0),
used to exhibit the `int16_t` truncation of the shift destinations. -/
def shiftCexState : DevState :=
  { baseState with buffer := fun i => if i = 18 then 1 else 0 }

lemma markDirty_buffer (W H : Nat) (x y w h : Int) (s : DevState) :
    (markDirty W H x y w h s).buffer = s.buffer := by
  unfold markDirty
  split <;> rfl

lemma resetDirtyArea_buffer (W H : Nat) (s : DevState) :
    (resetDirtyArea W H s).buffer = s.buffer := rfl

/-- C5 (amended): for every device state reachable by any sequence of mark
calls with positive width and height and reset calls, starting from a reset
state (panel with `1 ≤ W ≤ 255` and `H ≤ 2040`, so the `uint8_t` bounds do
not truncate), `min_col ≤ max_col` and `min_page ≤ max_page` hold if and
only if the needs-update flag is true. -/
theorem dirty_bounds_iff_needs_update {W H : Nat}
    (hW1 : 1 ≤ W) (hW : W ≤ 255) (hH : H ≤ 2040)
    {s : DevState} (hs : DirtyReach W H s) :
    (s.min_col ≤ s.max_col ∧ s.min_page ≤ s.max_page) ↔ s.needs_update = true := by
  induction hs with
  | base s =>
      simp only [resetDirtyArea]
      constructor
      · rintro ⟨h1, _⟩
        omega
      · intro h
        exact absurd h (by simp)
  | mark x y w h hw hh s ih =>
      by_cases hg : x ≥ (W : Int) ∨ y ≥ (H : Int) ∨ x + w ≤ 0 ∨ y + h ≤ 0
      · rw [markDirty, if_pos hg]
        exact ih
      · rw [markDirty, if_neg hg]
        push_neg at hg
        obtain ⟨hxW, hyH, hxw, hyh⟩ := hg
        simp only
        constructor
        · intro _
          trivial
        · intro _
          refine ⟨?_, ?_⟩ <;> (split_ifs <;> omega)
  | reset hs ih =>
      simp only [resetDirtyArea]
      constructor
      · rintro ⟨h1, _⟩
        omega
      · intro h
        exact absurd h (by simp)

/-- C5 counterexample: the claim as stated quantifies over arbitrary mark
calls.  The call `_ssd1306_mark_dirty(5, 0, -2, 1)` has a negative width but
passes the off-screen guard (`x + w = 3 > 0`), so after it the tracker has
`min_col = 5 > 2 = max_col` while the needs-update flag is true — refuting
the claimed equivalence on a state reached by one mark call from reset. -/
theorem mark_degenerate_rect_breaks_invariant :
    (markDirty 128 64 5 0 (-2) 1 (resetDirtyArea 128 64 baseState)).needs_update = true ∧
    ¬((markDirty 128 64 5 0 (-2) 1 (resetDirtyArea 128 64 baseState)).min_col ≤
        (markDirty 128 64 5 0 (-2) 1 (resetDirtyArea 128 64 baseState)).max_col ∧
      (markDirty 128 64 5 0 (-2) 1 (resetDirtyArea 128 64 baseState)).min_page ≤
        (markDirty 128 64 5 0 (-2) 1 (resetDirtyArea 128 64 baseState)).max_page) := by
  decide

/-- C1 (code bug): flushing the DIRTY state `dirtyDemoState` on a 128×64
panel with a failing pixel-data transaction propagates the failure, but the
dirty tracker is nevertheless reset to the CLEAN sentinel values
(`needs_update = false`, `min_col = 128`, `max_col = 0`, `min_page = 8`,
`max_page = 0`): `_ssd1306_reset_dirty_area` runs unconditionally after the
data transfer, contradicting the claim that the tracker is left DIRTY so a
later flush can retry. -/
theorem update_screen_data_failure_resets_tracker :
    (updateScreen 128 64 dirtyDemoState true true false).1 = false ∧
    (updateScreen 128 64 dirtyDemoState true true false).2.1.needs_update = false ∧
    (updateScreen 128 64 dirtyDemoState true true false).2.1.min_col = 128 ∧
    (updateScreen 128 64 dirtyDemoState true true false).2.1.max_col = 0 ∧
    (updateScreen 128 64 dirtyDemoState true true false).2.1.min_page = 8 ∧
    (updateScreen 128 64 dirtyDemoState true true false).2.1.max_page = 0 := by
  decide

/-- C4 counterexample: the claim quantifies over every device state, but
from a CLEAN state two consecutive flushes issue zero data transactions,
not exactly one. -/
theorem flush_twice_clean_no_data_txn :
    (dataWindows ((updateScreen 128 64 baseState true true true).2.2 ++
        (updateScreen 128 64
          (updateScreen 128 64 baseState true true true).2.1 true true true).2.2)).length = 0 ∧
    (0 : Nat) ≠ 1 := by
  decide

/-- C4 (amended): for every DIRTY device state, if the window command
transaction of the first flush succeeds (the data transfer may succeed or
fail), then two consecutive flushes issue exactly one bus data transaction:
the first flush leaves the device CLEAN, and the second flush, finding
nothing to update, returns success immediately with no bus traffic. -/
theorem flush_twice_dirty_single_data_txn (W H : Nat) (s : DevState)
    (hdirty : s.needs_update = true) (d1 c2 a2 d2 : Bool) :
    (dataWindows ((updateScreen W H s true true d1).2.2 ++
        (updateScreen W H (updateScreen W H s true true d1).2.1 c2 a2 d2).2.2)).length = 1 ∧
    (updateScreen W H s true true d1).2.1.needs_update = false ∧
    (updateScreen W H (updateScreen W H s true true d1).2.1 c2 a2 d2).1 = true ∧
    (updateScreen W H (updateScreen W H s true true d1).2.1 c2 a2 d2).2.2 = [] := by
  simp [updateScreen, hdirty, resetDirtyArea, dataWindows]

/-- Witness for C4 at the concrete DIRTY state `dirtyDemoState` with a
successful first data transfer. -/
theorem flush_twice_dirty_single_data_txn_witness :
    (dataWindows ((updateScreen 128 64 dirtyDemoState true true true).2.2 ++
        (updateScreen 128 64
          (updateScreen 128 64 dirtyDemoState true true true).2.1 true true true).2.2)).length = 1 ∧
    (updateScreen 128 64 dirtyDemoState true true true).2.1.needs_update = false ∧
    (updateScreen 128 64
      (updateScreen 128 64 dirtyDemoState true true true).2.1 true true true).1 = true ∧
    (updateScreen 128 64
      (updateScreen 128 64 dirtyDemoState true true true).2.1 true true true).2.2 = [] :=
  flush_twice_dirty_single_data_txn 128 64 dirtyDemoState rfl true true true true

/-- C2 counterexample: in Scenario A the single data transaction covers the
full screen, columns [0,127] and pages [0,7] — not columns [10,54] and
pages [1,5] as claimed — because `ssd1306_fill_buffer` marks the entire
screen dirty before the rectangle is drawn. -/
theorem scenarioA_window_not_rect :
    dataWindows scenarioA.2.2 = [(0, 127, 0, 7)] ∧
    ((0, 127, 0, 7) : Nat × Nat × Nat × Nat) ≠ (10, 54, 1, 5) := by
  decide

/-- C2 (amended): Scenario A issues exactly one addressing-window command
transaction followed by exactly one data transaction, and that data
transaction covers columns [0,127] and pages [0,7] (the whole screen,
since fill marks the entire buffer dirty); the flush succeeds. -/
theorem scenarioA_single_fullscreen_data_txn :
    scenarioA.2.2 = [Txn.cmd [0x21, 0, 127, 0x22, 0, 7], Txn.data 0 127 0 7] ∧
    (dataWindows scenarioA.2.2).length = 1 ∧
    scenarioA.1 = true := by
  decide

lemma writeByteBit_self (index bitPos : Nat) (color : Color) (buf : Nat → Nat) :
    writeByteBit index bitPos color buf index =
      match color with
      | Color.white => buf index ||| (1 <<< bitPos)
      | Color.black => buf index &&& (255 ^^^ (1 <<< bitPos))
      | Color.invert => buf index ^^^ (1 <<< bitPos) := by
  simp [writeByteBit]

lemma writeByteBit_other (index bitPos : Nat) (color : Color) (buf : Nat → Nat)
    (i : Nat) (h : i ≠ index) : writeByteBit index bitPos color buf i = buf i := by
  simp [writeByteBit, h]

lemma drawPixel_buffer (W H : Nat) (x y : Int) (color : Color) (s : DevState)
    (h : ¬(x < 0 ∨ x ≥ (W : Int) ∨ y < 0 ∨ y ≥ (H : Int))) :
    (drawPixel W H x y color s).buffer =
      writeByteBit (x.toNat + y.toNat / 8 * W) (y.toNat % 8) color s.buffer := by
  rw [drawPixel, if_neg h, markDirty_buffer]

/-- C7 counterexample: with the bit at (0,0) initially set, drawing ON then
OFF at (0,0) leaves the bit clear — it does not restore the original
value. -/
theorem draw_pixel_on_off_not_restoring :
    pixelAt 128 ((drawPixel 128 64 0 0 Color.black
        (drawPixel 128 64 0 0 Color.white allOnState)).buffer) 0 0 = false ∧
    pixelAt 128 allOnState.buffer 0 0 = true := by
  decide

/-- C7 (amended): for every in-bounds coordinate and every initial
framebuffer, ON followed by OFF leaves the bit at `(x, y)` clear (hence
restores the original bit exactly when that bit was clear), and INVERT
applied twice leaves every framebuffer byte unchanged. -/
theorem draw_pixel_on_off_clears_invert_involutive
    (W H : Nat) (x y : Int) (s : DevState)
    (hx0 : 0 ≤ x) (hxW : x < (W : Int)) (hy0 : 0 ≤ y) (hyH : y < (H : Int)) :
    pixelAt W ((drawPixel W H x y Color.black
        (drawPixel W H x y Color.white s)).buffer) x.toNat y.toNat = false ∧
    ∀ i, (drawPixel W H x y Color.invert
        (drawPixel W H x y Color.invert s)).buffer i = s.buffer i := by
  have hguard : ¬(x < 0 ∨ x ≥ (W : Int) ∨ y < 0 ∨ y ≥ (H : Int)) := by omega
  have hbit : y.toNat % 8 < 8 := Nat.mod_lt _ (by omega)
  have h2 : (1 : Nat) <<< (y.toNat % 8) = 2 ^ (y.toNat % 8) := by
    rw [Nat.shiftLeft_eq, one_mul]
  have htb255 : Nat.testBit 255 (y.toNat % 8) = true := by
    rw [show (255 : Nat) = 2 ^ 8 - 1 from by norm_num, Nat.testBit_two_pow_sub_one]
    simp [hbit]
  constructor
  · rw [drawPixel_buffer _ _ _ _ _ _ hguard, drawPixel_buffer _ _ _ _ _ _ hguard]
    simp only [pixelAt]
    rw [writeByteBit_self, writeByteBit_self]
    simp only [h2]
    rw [Nat.testBit_and, Nat.testBit_xor, htb255, Nat.testBit_two_pow]
    simp
  · intro i
    rw [drawPixel_buffer _ _ _ _ _ _ hguard, drawPixel_buffer _ _ _ _ _ _ hguard]
    by_cases hi : i = x.toNat + y.toNat / 8 * W
    · subst hi
      rw [writeByteBit_self, writeByteBit_self]
      exact Nat.xor_cancel_right _ _
    · rw [writeByteBit_other _ _ _ _ _ hi, writeByteBit_other _ _ _ _ _ hi]

/-- Witness for C7 at (3,5) on a 128×64 panel with the all-on
framebuffer. -/
theorem draw_pixel_on_off_clears_invert_involutive_witness :
    pixelAt 128 ((drawPixel 128 64 3 5 Color.black
        (drawPixel 128 64 3 5 Color.white allOnState)).buffer) (3 : Int).toNat (5 : Int).toNat = false ∧
    ∀ i, (drawPixel 128 64 3 5 Color.invert
        (drawPixel 128 64 3 5 Color.invert allOnState)).buffer i = allOnState.buffer i :=
  draw_pixel_on_off_clears_invert_involutive 128 64 3 5 allOnState
    (by decide) (by decide) (by decide) (by decide)

/-- C8 counterexample: `ssd1306_fill_buffer` with INVERT sets bytes to
`0xFF`, not `0x00`; it is not mapped to OFF (and the function returns
`void`, so no error can be reported). -/
theorem fill_buffer_invert_not_off :
    (fillBuffer 128 64 Color.invert baseState).buffer 0 = 255 ∧ (255 : Nat) ≠ 0 := by
  decide

/-- C8 (amended): filling with INVERT is mapped to ON: every framebuffer
byte is set to `0xFF`, exactly as a fill with WHITE; no error is
reported. -/
theorem fill_buffer_invert_maps_to_on (W H : Nat) (s : DevState) (i : Nat)
    (hi : i < bufSize W H) :
    (fillBuffer W H Color.invert s).buffer i = 255 ∧
    (fillBuffer W H Color.invert s).buffer i = (fillBuffer W H Color.white s).buffer i := by
  unfold fillBuffer
  rw [markDirty_buffer, markDirty_buffer]
  simp only [if_pos hi]
  exact ⟨rfl, rfl⟩

/-- Witness for C8 at byte 0 on a 128×64 panel. -/
theorem fill_buffer_invert_maps_to_on_witness :
    (fillBuffer 128 64 Color.invert baseState).buffer 0 = 255 ∧
    (fillBuffer 128 64 Color.invert baseState).buffer 0 =
      (fillBuffer 128 64 Color.white baseState).buffer 0 :=
  fill_buffer_invert_maps_to_on 128 64 baseState 0 (by decide)

/-- C9: the command-list retry loop returns success as soon as one of the
first three attempts succeeds (making exactly the attempts up to and
including the first successful one), and returns failure only after all
three attempts have failed. -/
theorem send_cmd_list_retry_semantics (res : Nat → Bool) :
    (∀ k, k < 3 → res k = true → (∀ j, j < k → res j = false) →
      sendCmdListRetry res = (true, k + 1)) ∧
    ((∀ k, k < 3 → res k = false) → sendCmdListRetry res = (false, 3)) := by
  constructor
  · intro k hk hres hprev
    interval_cases k
    · simp [sendCmdListRetry, retryGo, hres]
    · have h0 : res 0 = false := hprev 0 (by omega)
      simp [sendCmdListRetry, retryGo, h0, hres]
    · have h0 : res 0 = false := hprev 0 (by omega)
      have h1 : res 1 = false := hprev 1 (by omega)
      simp [sendCmdListRetry, retryGo, h0, h1, hres]
  · intro hall
    have h0 : res 0 = false := hall 0 (by omega)
    have h1 : res 1 = false := hall 1 (by omega)
    have h2 : res 2 = false := hall 2 (by omega)
    simp [sendCmdListRetry, retryGo, h0, h1, h2]

/-- Witness for C9 with a bus that fails once and then succeeds: the loop
returns success after two attempts. -/
theorem send_cmd_list_retry_semantics_witness :
    sendCmdListRetry (fun i => decide (i = 1)) = (true, 2) :=
  (send_cmd_list_retry_semantics (fun i => decide (i = 1))).1 1 (by decide)
    (by decide) (by decide)

lemma markDirty_textsize_x (W H : Nat) (x y w h : Int) (s : DevState) :
    (markDirty W H x y w h s).textsize_x = s.textsize_x := by
  unfold markDirty
  split <;> rfl

lemma markDirty_textsize_y (W H : Nat) (x y w h : Int) (s : DevState) :
    (markDirty W H x y w h s).textsize_y = s.textsize_y := by
  unfold markDirty
  split <;> rfl

lemma drawFastVline_textsize (W H : Nat) (x y h : Int) (c : Color) (s : DevState) :
    (drawFastVline W H x y h c s).textsize_x = s.textsize_x ∧
    (drawFastVline W H x y h c s).textsize_y = s.textsize_y := by
  simp only [drawFastVline]
  split_ifs <;> simp [markDirty_textsize_x, markDirty_textsize_y]

lemma foldl_textsize {α : Type} (f : DevState → α → DevState)
    (hf : ∀ st a, (f st a).textsize_x = st.textsize_x ∧ (f st a).textsize_y = st.textsize_y) :
    ∀ (l : List α) (st : DevState),
      (l.foldl f st).textsize_x = st.textsize_x ∧ (l.foldl f st).textsize_y = st.textsize_y := by
  intro l
  induction l with
  | nil => exact fun st => ⟨rfl, rfl⟩
  | cons a l ih =>
      intro st
      rw [List.foldl_cons]
      exact ⟨(ih (f st a)).1.trans (hf st a).1, (ih (f st a)).2.trans (hf st a).2⟩

lemma range_vline_foldl_textsize (W H : Nat) (x0 y h : Int) (c : Color) (n : Nat) (st : DevState) :
    ((List.range n).foldl
      (fun st (k : Nat) => drawFastVline W H (x0 + (k : Int)) y h c st) st).textsize_x = st.textsize_x ∧
    ((List.range n).foldl
      (fun st (k : Nat) => drawFastVline W H (x0 + (k : Int)) y h c st) st).textsize_y = st.textsize_y :=
  foldl_textsize (fun st (k : Nat) => drawFastVline W H (x0 + (k : Int)) y h c st)
    (fun st (k : Nat) => drawFastVline_textsize W H (x0 + (k : Int)) y h c st) (List.range n) st

lemma fillRect_textsize (W H : Nat) (x y w h : Int) (c : Color) (s : DevState) :
    (fillRect W H x y w h c s).textsize_x = s.textsize_x ∧
    (fillRect W H x y w h c s).textsize_y = s.textsize_y := by
  simp only [fillRect]
  split_ifs <;> try exact ⟨rfl, rfl⟩
  all_goals
    exact ⟨(range_vline_foldl_textsize W H _ y h c _ _).1.trans
        (markDirty_textsize_x _ _ _ _ _ _ _),
      (range_vline_foldl_textsize W H _ y h c _ _).2.trans
        (markDirty_textsize_y _ _ _ _ _ _ _)⟩

lemma fillBuffer_textsize (W H : Nat) (c : Color) (s : DevState) :
    (fillBuffer W H c s).textsize_x = s.textsize_x ∧
    (fillBuffer W H c s).textsize_y = s.textsize_y := by
  unfold fillBuffer
  rw [markDirty_textsize_x, markDirty_textsize_y]
  exact ⟨rfl, rfl⟩

lemma updateScreen_textsize (W H : Nat) (s : DevState) (c a d : Bool) :
    (updateScreen W H s c a d).2.1.textsize_x = s.textsize_x ∧
    (updateScreen W H s c a d).2.1.textsize_y = s.textsize_y := by
  unfold updateScreen
  split_ifs <;> exact ⟨rfl, rfl⟩

lemma shiftFramebuffer_textsize (W H : Nat) (dx dy : Int) (wr : Bool) (s : DevState) :
    (shiftFramebuffer W H dx dy wr s).textsize_x = s.textsize_x ∧
    (shiftFramebuffer W H dx dy wr s).textsize_y = s.textsize_y := by
  unfold shiftFramebuffer
  split_ifs <;> simp [markDirty_textsize_x, markDirty_textsize_y]

/-- C10: along every sequence of modeled operations from a successfully
created device, both text scale factors stay at least 1: creation sets them
to 1, the size setters replace 0 by 1, and no other operation writes
them. -/
theorem textsize_always_positive (W H : Nat) (ops : List Op) :
    1 ≤ (ops.foldl (applyOp W H) (initState W H)).textsize_x ∧
    1 ≤ (ops.foldl (applyOp W H) (initState W H)).textsize_y := by
  have hstep : ∀ (s : DevState) (op : Op),
      1 ≤ s.textsize_x ∧ 1 ≤ s.textsize_y →
      1 ≤ (applyOp W H s op).textsize_x ∧ 1 ≤ (applyOp W H s op).textsize_y := by
    intro s op hs
    cases op with
    | setTextSize n =>
        simp only [applyOp, setTextSize, setTextSizeCustom]
        constructor <;> (split <;> omega)
    | setTextSizeCustom nx ny =>
        simp only [applyOp, setTextSizeCustom]
        constructor <;> (split <;> omega)
    | setCursor x y => exact hs
    | setTextWrap b => exact hs
    | setTextColor c => exact hs
    | setTextColorBg c bg => exact hs
    | fill c =>
        have h := fillBuffer_textsize W H c s
        simp only [applyOp]
        rw [h.1, h.2]
        exact hs
    | clear =>
        have h := fillBuffer_textsize W H Color.black s
        simp only [applyOp, clearBuffer]
        rw [h.1, h.2]
        exact hs
    | pixel x y c =>
        simp only [applyOp, drawPixel]
        split
        · exact hs
        · rw [markDirty_textsize_x, markDirty_textsize_y]
          exact hs
    | vline x y h c =>
        have hv := drawFastVline_textsize W H x y h c s
        simp only [applyOp]
        rw [hv.1, hv.2]
        exact hs
    | rect x y w h c =>
        have hr := fillRect_textsize W H x y w h c s
        simp only [applyOp]
        rw [hr.1, hr.2]
        exact hs
    | shift dx dy wr =>
        have hsh := shiftFramebuffer_textsize W H dx dy wr s
        simp only [applyOp]
        rw [hsh.1, hsh.2]
        exact hs
    | mark x y w h =>
        simp only [applyOp]
        rw [markDirty_textsize_x, markDirty_textsize_y]
        exact hs
    | resetDirty => exact hs
    | update c a d =>
        have hu := updateScreen_textsize W H s c a d
        simp only [applyOp]
        rw [hu.1, hu.2]
        exact hs
  have hinit : 1 ≤ (initState W H).textsize_x ∧ 1 ≤ (initState W H).textsize_y := by
    have hu := updateScreen_textsize W H
      (clearBuffer W H (resetDirtyArea W H baseState)) true true true
    have hc := fillBuffer_textsize W H Color.black (resetDirtyArea W H baseState)
    unfold initState
    rw [hu.1, hu.2]
    unfold clearBuffer
    rw [hc.1, hc.2]
    exact ⟨Nat.le_refl 1, Nat.le_refl 1⟩
  suffices h : ∀ (l : List Op) (s : DevState),
      1 ≤ s.textsize_x ∧ 1 ≤ s.textsize_y →
      1 ≤ (l.foldl (applyOp W H) s).textsize_x ∧ 1 ≤ (l.foldl (applyOp W H) s).textsize_y by
    exact h ops (initState W H) hinit
  intro l
  induction l with
  | nil => exact fun s hsz => hsz
  | cons a l ih =>
      intro s hsz
      rw [List.foldl_cons]
      exact ih _ (hstep s a hsz)

/-- Witness for C5 on a 128×64 panel: the invariant evaluated at the state
reached by marking a 2×2 rectangle at (3,3) after a reset. -/
theorem dirty_bounds_iff_needs_update_witness :
    ((markDirty 128 64 3 3 2 2 (resetDirtyArea 128 64 baseState)).min_col ≤
        (markDirty 128 64 3 3 2 2 (resetDirtyArea 128 64 baseState)).max_col ∧
      (markDirty 128 64 3 3 2 2 (resetDirtyArea 128 64 baseState)).min_page ≤
        (markDirty 128 64 3 3 2 2 (resetDirtyArea 128 64 baseState)).max_page) ↔
      (markDirty 128 64 3 3 2 2 (resetDirtyArea 128 64 baseState)).needs_update = true :=
  dirty_bounds_iff_needs_update (by decide) (by decide) (by decide)
    (DirtyReach.mark 3 3 2 2 (by decide) (by decide) (DirtyReach.base baseState))

/-- C3 counterexample: writing `"A"` with `cexFont` from cursor `(0,0)` at
scale 1 with wrap on a 128×64 panel: measurement computes the envelope
`[0,2] × [-3,0]`, but the write path first applies the one-time origin
auto-adjustment (absent from `_ssd1306_char_bounds`), moving the cursor to
`y = 4`, so the drawn glyph rectangle is `[0,2] × [1,4]` — the envelopes
differ. -/
theorem measure_write_origin_adjust_mismatch :
    (boundsRun 128 1 1 true cexFont [65] ⟨0, 0, ⟨128, 64, -1, -1⟩⟩).env =
      ⟨0, -3, 2, 0⟩ ∧
    boxesEnvelope ⟨128, 64, -1, -1⟩ (writeRun 128 1 1 true cexFont [65] ⟨0, 0⟩).2 =
      ⟨0, 1, 2, 4⟩ ∧
    ((⟨0, -3, 2, 0⟩ : Envelope) ≠ ⟨0, 1, 2, 4⟩) := by
  decide

lemma wrap16_eq_self (z : Int) (h1 : -32768 ≤ z) (h2 : z ≤ 32767) : wrap16 z = z := by
  unfold wrap16
  omega

lemma wrap16_id (z : Int) (h : inI16 z = true) : wrap16 z = z := by
  unfold inI16 at h
  unfold wrap16
  simp only [decide_eq_true_eq] at h
  omega

lemma charBounds_writeCharStep_agree (W sx sy : Nat) (wrapF : Bool) (font : GFXfont)
    (c : Nat) (p : TextCursor) (e : Envelope)
    (hy : 0 < p.y)
    (hglyph : font.first ≤ c → c ≤ font.last →
      (font.glyph (c - font.first)).width ≠ 0 ∧ (font.glyph (c - font.first)).height ≠ 0)
    (hfit : charFits W sx sy wrapF font c ⟨p.x, p.y, e⟩ = true) :
    charBounds W sx sy wrapF font c ⟨p.x, p.y, e⟩ =
      ⟨(writeCharStep W sx sy wrapF font c p).1.x,
        (writeCharStep W sx sy wrapF font c p).1.y,
        boxesEnvelope e (writeCharStep W sx sy wrapF font c p).2.toList⟩ ∧
    p.y ≤ (writeCharStep W sx sy wrapF font c p).1.y := by
  have hadv : (0 : Int) ≤ (sy : Int) * (font.yAdvance : Int) := by positivity
  by_cases h10 : c = 10
  · subst h10
    have hf : inI16 (p.y + (sy : Int) * (font.yAdvance : Int)) = true := by
      simpa [charFits] using hfit
    constructor
    · simp [charBounds, writeCharStep, boxesEnvelope]
    · simp [writeCharStep]
      rw [wrap16_id _ hf]
      linarith
  · by_cases h13 : c = 13
    · subst h13
      constructor
      · simp [charBounds, writeCharStep, boxesEnvelope]
      · simp [writeCharStep]
    · by_cases hin : font.first ≤ c ∧ c ≤ font.last
      · obtain ⟨hnz1, hnz2⟩ := hglyph hin.1 hin.2
        have hadj : ¬(p.x = 0 ∧ p.y = 0 ∧ (font.glyph (c - font.first)).yOffset < 0) := by
          rintro ⟨-, hy0, -⟩
          omega
        have hbox : ¬((font.glyph (c - font.first)).width = 0 ∨
            (font.glyph (c - font.first)).height = 0) := by
          rintro (h | h)
          · exact hnz1 h
          · exact hnz2 h
        by_cases hwrap : wrapF = true ∧
            p.x + ((font.glyph (c - font.first)).xOffset +
              ((font.glyph (c - font.first)).width : Int)) * (sx : Int) > (W : Int)
        · have hwrap2 : wrapF = true ∧
              p.x + (sx : Int) * ((font.glyph (c - font.first)).xOffset +
                ((font.glyph (c - font.first)).width : Int)) > (W : Int) := by
            refine ⟨hwrap.1, ?_⟩
            rw [mul_comm]
            exact hwrap.2
          have hfit' := hfit
          simp only [charFits, if_neg h10, if_neg h13, if_pos hin, if_pos hwrap,
            Bool.and_eq_true] at hfit'
          obtain ⟨⟨⟨⟨⟨⟨⟨hfq2, hfx1⟩, hfy1⟩, hfx2⟩, hfy2⟩, hfws⟩, hfhs⟩, hfadv⟩ := hfit'
          constructor
          · simp only [charBounds, writeCharStep, if_neg h10, if_neg h13, if_pos hin,
              if_neg hadj, if_pos hwrap, if_pos hwrap2, if_neg hbox,
              boxesEnvelope, Option.toList_some, List.foldl_cons, List.foldl_nil]
            rw [wrap16_id _ hfq2, wrap16_id _ hfx1, wrap16_id _ hfy1, wrap16_id _ hfx2,
              wrap16_id _ hfy2, wrap16_id _ hfws, wrap16_id _ hfhs]
          · simp [writeCharStep, if_neg h10, if_neg h13, if_pos hin,
              if_neg hadj, if_pos hwrap2]
            rw [wrap16_id _ hfq2]
            linarith
        · have hwrap2 : ¬(wrapF = true ∧
              p.x + (sx : Int) * ((font.glyph (c - font.first)).xOffset +
                ((font.glyph (c - font.first)).width : Int)) > (W : Int)) := by
            intro hcon
            refine hwrap ⟨hcon.1, ?_⟩
            rw [mul_comm]
            exact hcon.2
          have hfit' := hfit
          simp only [charFits, if_neg h10, if_neg h13, if_pos hin, if_neg hwrap,
            Bool.and_eq_true] at hfit'
          obtain ⟨⟨⟨⟨⟨⟨⟨hfq2, hfx1⟩, hfy1⟩, hfx2⟩, hfy2⟩, hfws⟩, hfhs⟩, hfadv⟩ := hfit'
          constructor
          · simp only [charBounds, writeCharStep, if_neg h10, if_neg h13, if_pos hin,
              if_neg hadj, if_neg hwrap, if_neg hwrap2, if_neg hbox,
              boxesEnvelope, Option.toList_some, List.foldl_cons, List.foldl_nil]
            rw [wrap16_id _ hfx1, wrap16_id _ hfy1, wrap16_id _ hfx2,
              wrap16_id _ hfy2, wrap16_id _ hfws, wrap16_id _ hfhs]
          · simp [writeCharStep, if_neg h10, if_neg h13, if_pos hin,
              if_neg hadj, if_neg hwrap2]
      · constructor
        · simp [charBounds, writeCharStep, h10, h13, hin, boxesEnvelope]
        · simp [writeCharStep, h10, h13, hin]

lemma measure_write_run_aux (W sx sy : Nat) (wrapF : Bool) (font : GFXfont) :
    ∀ (str : List Nat) (x0 y0 : Int) (e0 : Envelope), 0 < y0 →
      (∀ c ∈ str, font.first ≤ c → c ≤ font.last →
        (font.glyph (c - font.first)).width ≠ 0 ∧
        (font.glyph (c - font.first)).height ≠ 0) →
      runFits W sx sy wrapF font str ⟨x0, y0, e0⟩ = true →
      boundsRun W sx sy wrapF font str ⟨x0, y0, e0⟩ =
        ⟨(writeRun W sx sy wrapF font str ⟨x0, y0⟩).1.x,
          (writeRun W sx sy wrapF font str ⟨x0, y0⟩).1.y,
          boxesEnvelope e0 (writeRun W sx sy wrapF font str ⟨x0, y0⟩).2⟩ := by
  intro str
  induction str with
  | nil =>
      intro x0 y0 e0 hy hg hfits
      simp [boundsRun, writeRun, boxesEnvelope]
  | cons c rest ih =>
      intro x0 y0 e0 hy hg hfits
      rw [runFits, Bool.and_eq_true] at hfits
      obtain ⟨heq, hmono⟩ := charBounds_writeCharStep_agree W sx sy wrapF font c ⟨x0, y0⟩ e0 hy
        (hg c (List.mem_cons_self c rest)) hfits.1
      have hy2 : 0 < (writeCharStep W sx sy wrapF font c ⟨x0, y0⟩).1.y :=
        lt_of_lt_of_le hy hmono
      have hg2 : ∀ d ∈ rest, font.first ≤ d → d ≤ font.last →
          (font.glyph (d - font.first)).width ≠ 0 ∧
          (font.glyph (d - font.first)).height ≠ 0 :=
        fun d hd => hg d (List.mem_cons_of_mem c hd)
      have hfits2 := hfits.2
      rw [heq] at hfits2
      show boundsRun W sx sy wrapF font rest
          (charBounds W sx sy wrapF font c ⟨x0, y0, e0⟩) = _
      rw [heq]
      have hihyp := ih (writeCharStep W sx sy wrapF font c ⟨x0, y0⟩).1.x
        (writeCharStep W sx sy wrapF font c ⟨x0, y0⟩).1.y
        (boxesEnvelope e0 (writeCharStep W sx sy wrapF font c ⟨x0, y0⟩).2.toList) hy2 hg2 hfits2
      rw [hihyp]
      show _ = (⟨(writeRun W sx sy wrapF font (c :: rest) ⟨x0, y0⟩).1.x,
        (writeRun W sx sy wrapF font (c :: rest) ⟨x0, y0⟩).1.y,
        boxesEnvelope e0 (writeRun W sx sy wrapF font (c :: rest) ⟨x0, y0⟩).2⟩ : BoundsAcc)
      rw [writeRun]
      simp only [boxesEnvelope, List.foldl_append]

/-- C3 (amended): for every string, font, text size, wrap setting and
starting cursor with positive y (so the one-time origin auto-adjustment of
`ssd1306_write` never fires — from positive y the `int16_t` cursor can
revisit `(0,0)` only through 16-bit wraparound, which the no-truncation
hypothesis excludes), provided no `int16_t` store truncates along the
measured run (`runFits`) and every in-range character of the string has a
glyph of nonzero width and height (zero-area glyphs are measured but never
drawn), measure replays exactly the advance and wrap decisions of write —
the cursors coincide after every prefix — and the measured envelope equals
the envelope of the glyph rectangles that write draws, both accumulated
from the same initial envelope. -/
theorem measure_write_agree (W H sx sy : Nat) (wrapF : Bool) (font : GFXfont)
    (str : List Nat) (x0 y0 : Int)
    (hy : 0 < y0)
    (hglyph : ∀ c ∈ str, font.first ≤ c → c ≤ font.last →
      (font.glyph (c - font.first)).width ≠ 0 ∧
      (font.glyph (c - font.first)).height ≠ 0)
    (hfits : runFits W sx sy wrapF font str ⟨x0, y0, ⟨(W : Int), (H : Int), -1, -1⟩⟩ = true) :
    boundsRun W sx sy wrapF font str ⟨x0, y0, ⟨(W : Int), (H : Int), -1, -1⟩⟩ =
      ⟨(writeRun W sx sy wrapF font str ⟨x0, y0⟩).1.x,
        (writeRun W sx sy wrapF font str ⟨x0, y0⟩).1.y,
        boxesEnvelope ⟨(W : Int), (H : Int), -1, -1⟩
          (writeRun W sx sy wrapF font str ⟨x0, y0⟩).2⟩ :=
  measure_write_run_aux W sx sy wrapF font str x0 y0 _ hy hglyph hfits

/-- Witness for C3: writing `"A"` with `cexFont` from cursor `(0, 9)` (below
the origin, so the auto-adjustment cannot fire; no 16-bit store
truncates). -/
theorem measure_write_agree_witness :
    boundsRun 128 1 1 true cexFont [65] ⟨0, 9, ⟨128, 64, -1, -1⟩⟩ =
      ⟨(writeRun 128 1 1 true cexFont [65] ⟨0, 9⟩).1.x,
        (writeRun 128 1 1 true cexFont [65] ⟨0, 9⟩).1.y,
        boxesEnvelope ⟨128, 64, -1, -1⟩
          (writeRun 128 1 1 true cexFont [65] ⟨0, 9⟩).2⟩ :=
  measure_write_agree 128 64 1 1 true cexFont [65] 0 9 (by decide)
    (by
      intro c hc h1 h2
      have hc65 : c = 65 := by simpa using hc
      subst hc65
      exact ⟨by decide, by decide⟩)
    (by decide)

lemma neg_lt_tmod (a n : Int) (hn : 0 < n) : -n < Int.tmod a n := by
  rcases a with m | m
  · have h0 : 0 ≤ Int.tmod (Int.ofNat m) n :=
      Int.tmod_nonneg n (by rw [Int.ofNat_eq_coe]; exact Int.natCast_nonneg m)
    omega
  · rcases n with k | k
    · have hk : 0 < k := by
        rw [Int.ofNat_eq_coe] at hn
        exact_mod_cast hn
      have he : Int.tmod (Int.negSucc m) (Int.ofNat k) = -Int.ofNat ((m + 1) % k) := rfl
      rw [he]
      have hlt := Nat.mod_lt (m + 1) hk
      rw [Int.ofNat_eq_coe, Int.ofNat_eq_coe]
      omega
    · rw [Int.negSucc_eq] at hn
      omega

/-- The C construct `((v % n) + n) % n` (with the inner `%` the C truncated
modulo) computes the mathematical (Euclidean) modulo. -/
lemma tmod_double_emod (a : Int) (n : Nat) (hn : 0 < n) :
    (Int.tmod a (n : Int) + (n : Int)).tmod (n : Int) = a % (n : Int) := by
  have hnz : (0 : Int) < (n : Int) := by exact_mod_cast hn
  have h1 : Int.tmod a (n : Int) < (n : Int) := Int.tmod_lt_of_pos a hnz
  have h2 : -(n : Int) < Int.tmod a (n : Int) := neg_lt_tmod a (n : Int) hnz
  have h3 : 0 ≤ Int.tmod a (n : Int) + (n : Int) := by omega
  rw [Int.tmod_eq_emod h3 (by omega)]
  have h4 : Int.tmod a (n : Int) = a - (n : Int) * a.tdiv (n : Int) := by
    have h5 := Int.tdiv_add_tmod a (n : Int)
    linarith
  rw [h4]
  have h6 : a - (n : Int) * a.tdiv (n : Int) + (n : Int) =
      a + (1 - a.tdiv (n : Int)) * (n : Int) := by ring
  rw [h6, Int.add_mul_emod_self]

lemma testBit_or_shift (b m j : Nat) :
    Nat.testBit (b ||| (1 <<< m)) j = (Nat.testBit b j || decide (m = j)) := by
  rw [Nat.testBit_or, Nat.shiftLeft_eq, one_mul, Nat.testBit_two_pow]

lemma shiftRight_and_one (v k : Nat) :
    ((v >>> k) &&& 1 = 1) ↔ Nat.testBit v k = true := by
  rw [Nat.and_one_is_mod, Nat.shiftRight_eq_div_pow, Nat.testBit_to_div_mod]
  simp

lemma setBitAt_testBit (idx bit : Nat) (buf : Nat → Nat) (i b : Nat) :
    (Nat.testBit (setBitAt idx bit buf i) b = true ↔
      Nat.testBit (buf i) b = true ∨ (i = idx ∧ b = bit)) := by
  unfold setBitAt
  by_cases hi : i = idx
  · subst hi
    rw [if_pos rfl, testBit_or_shift]
    simp only [Bool.or_eq_true, decide_eq_true_eq]
    constructor
    · rintro (h | h)
      · exact Or.inl h
      · exact Or.inr ⟨trivial, h.symm⟩
    · rintro (h | ⟨-, h⟩)
      · exact Or.inl h
      · exact Or.inr h.symm
  · rw [if_neg hi]
    simp [hi]

lemma step_testBit (W H : Nat) (dx dy : Int) (wrapF : Bool) (src : Nat → Nat)
    (acc : Nat → Nat) (p : Nat × Nat) (i b : Nat) :
    (Nat.testBit ((shiftPixelStep W H dx dy wrapF src acc p) i) b = true ↔
      Nat.testBit (acc i) b = true ∨ stepHits W H dx dy wrapF src p i b) := by
  simp only [shiftPixelStep, stepHits]
  by_cases hsrc : (src (p.1 + p.2 / 8 * W) >>> (p.2 % 8)) &&& 1 = 1
  · rw [if_pos hsrc]
    by_cases hr : 0 ≤ dstOf W dx wrapF p.1 ∧ dstOf W dx wrapF p.1 < (W : Int) ∧
        0 ≤ dstOf H dy wrapF p.2 ∧ dstOf H dy wrapF p.2 < (H : Int)
    · rw [if_pos hr, setBitAt_testBit]
      constructor
      · rintro (h | ⟨hi, hb⟩)
        · exact Or.inl h
        · exact Or.inr ⟨hsrc, hr, hi, hb⟩
      · rintro (h | ⟨-, -, hi, hb⟩)
        · exact Or.inl h
        · exact Or.inr ⟨hi, hb⟩
    · rw [if_neg hr]
      constructor
      · exact Or.inl
      · rintro (h | ⟨-, hrcon, -⟩)
        · exact h
        · exact absurd hrcon hr
  · rw [if_neg hsrc]
    constructor
    · exact Or.inl
    · rintro (h | ⟨hcon, -⟩)
      · exact h
      · exact absurd hcon hsrc

lemma shift_fold_testBit (W H : Nat) (dx dy : Int) (wrapF : Bool) (src : Nat → Nat) :
    ∀ (L : List (Nat × Nat)) (acc : Nat → Nat) (i b : Nat),
      (Nat.testBit ((L.foldl (shiftPixelStep W H dx dy wrapF src) acc) i) b = true ↔
        Nat.testBit (acc i) b = true ∨ ∃ p ∈ L, stepHits W H dx dy wrapF src p i b) := by
  intro L
  induction L with
  | nil =>
      intro acc i b
      simp
  | cons p L ih =>
      intro acc i b
      rw [List.foldl_cons, ih, step_testBit]
      constructor
      · rintro ((h | h) | ⟨q, hq, h⟩)
        · exact Or.inl h
        · exact Or.inr ⟨p, List.mem_cons_self p L, h⟩
        · exact Or.inr ⟨q, List.mem_cons_of_mem p hq, h⟩
      · rintro (h | ⟨q, hq, h⟩)
        · exact Or.inl (Or.inl h)
        · rcases List.mem_cons.mp hq with rfl | hq2
          · exact Or.inl (Or.inr h)
          · exact Or.inr ⟨q, hq2, h⟩

lemma setBitAt_lt_256 (idx bit : Nat) (buf : Nat → Nat)
    (hbuf : ∀ i, buf i < 256) (hbit : bit < 8) :
    ∀ i, setBitAt idx bit buf i < 256 := by
  intro i
  unfold setBitAt
  split_ifs
  · have h1 : buf idx < 2 ^ 8 := hbuf idx
    have h2 : (1 <<< bit) < 2 ^ 8 := by
      rw [Nat.shiftLeft_eq, one_mul]
      have hle : (2 : Nat) ^ bit ≤ 2 ^ 7 := Nat.pow_le_pow_right (by omega) (by omega)
      omega
    have h3 := Nat.or_lt_two_pow h1 h2
    omega
  · exact hbuf i

lemma shift_fold_lt_256 (W H : Nat) (dx dy : Int) (wrapF : Bool) (src : Nat → Nat) :
    ∀ (L : List (Nat × Nat)) (acc : Nat → Nat), (∀ i, acc i < 256) →
      ∀ i, (L.foldl (shiftPixelStep W H dx dy wrapF src) acc) i < 256 := by
  intro L
  induction L with
  | nil => exact fun acc h i => h i
  | cons p L ih =>
      intro acc hacc i
      rw [List.foldl_cons]
      refine ih _ ?_ i
      intro k
      simp only [shiftPixelStep]
      split_ifs <;>
        first
          | exact hacc k
          | exact setBitAt_lt_256 _ _ acc hacc (Nat.mod_lt _ (by omega)) k

lemma mem_pixelPairs (W H : Nat) (p : Nat × Nat) :
    p ∈ pixelPairs W H ↔ p.1 < W ∧ p.2 < H := by
  rcases p with ⟨x, y⟩
  simp only [pixelPairs, List.mem_flatMap, List.mem_map, List.mem_range]
  constructor
  · rintro ⟨b, hb, a, ha, heq⟩
    obtain ⟨rfl, rfl⟩ := Prod.mk.injEq .. ▸ And.intro (congrArg Prod.fst heq) (congrArg Prod.snd heq)
    exact ⟨ha, hb⟩
  · rintro ⟨hx, hy⟩
    exact ⟨y, hy, x, hx, rfl⟩

lemma pix_index_inj (W : Nat) (hW : 0 < W) {x1 x2 y1 y2 : Nat} (h1 : x1 < W) (h2 : x2 < W)
    (hidx : x1 + y1 / 8 * W = x2 + y2 / 8 * W) (hbit : y1 % 8 = y2 % 8) :
    x1 = x2 ∧ y1 = y2 := by
  have hx : x1 = x2 := by
    have hm : x1 % W = x2 % W := by
      rw [← Nat.add_mul_mod_self_right x1 (y1 / 8) W, hidx, Nat.add_mul_mod_self_right]
    rwa [Nat.mod_eq_of_lt h1, Nat.mod_eq_of_lt h2] at hm
  subst hx
  have h3 : y1 / 8 * W = y2 / 8 * W := by omega
  have hdiv : y1 / 8 = y2 / 8 := Nat.eq_of_mul_eq_mul_right hW h3
  omega

lemma emod_shift_inv (W : Nat) (dx : Int) (u x : Nat) (hu : u < W) (hx : x < W) :
    (((u : Int) + dx) % (W : Int) = (x : Int)) ↔
      (((x : Int) - dx) % (W : Int) = (u : Int)) := by
  constructor
  · intro h
    have e1 : ((x : Int) - dx) % (W : Int) = ((u : Int) + dx - dx) % (W : Int) := by
      conv_lhs => rw [← h]
      rw [Int.sub_emod, Int.emod_emod, ← Int.sub_emod]
    rw [e1, Int.add_sub_cancel]
    exact Int.emod_eq_of_lt (by omega) (by exact_mod_cast hu)
  · intro h
    have e1 : ((u : Int) + dx) % (W : Int) = ((x : Int) - dx + dx) % (W : Int) := by
      conv_lhs => rw [← h]
      rw [Int.add_emod, Int.emod_emod, ← Int.add_emod]
    rw [e1, Int.sub_add_cancel]
    exact Int.emod_eq_of_lt (by omega) (by exact_mod_cast hx)

lemma dstOf_wrap (n : Nat) (hn : 0 < n) (d : Int) (v : Nat) :
    dstOf n d true v = wrap16 ((v : Int) + d) % (n : Int) := by
  unfold dstOf
  rw [if_pos rfl]
  exact tmod_double_emod _ n hn

lemma dstOf_wrap_fit (n : Nat) (hn : 0 < n) (d : Int) (v : Nat) (hv : v < n)
    (hd : d.natAbs + n ≤ 32768) :
    dstOf n d true v = ((v : Int) + d) % (n : Int) := by
  rw [dstOf_wrap n hn d v, wrap16_eq_self]
  · omega
  · omega

lemma bool_eq_of_iff {a b : Bool} (h : a = true ↔ b = true) : a = b := by
  cases a <;> cases b <;> simp_all

lemma stepHits_wrap_iff (W H : Nat) (dx dy : Int) (src : Nat → Nat)
    (hW : 0 < W) (hH : 0 < H) (hdx : dx.natAbs + W ≤ 32768) (hdy : dy.natAbs + H ≤ 32768)
    (x y : Nat) (hx : x < W) (hy : y < H)
    (p : Nat × Nat) (hp1 : p.1 < W) (hp2 : p.2 < H) :
    stepHits W H dx dy true src p (x + y / 8 * W) (y % 8) ↔
      ((src (p.1 + p.2 / 8 * W) >>> (p.2 % 8)) &&& 1 = 1) ∧
      p.1 = (((x : Int) - dx) % (W : Int)).toNat ∧
      p.2 = (((y : Int) - dy) % (H : Int)).toNat := by
  have hWz : ((W : Int)) ≠ 0 := by exact_mod_cast hW.ne'
  have hHz : ((H : Int)) ≠ 0 := by exact_mod_cast hH.ne'
  have hWp : (0 : Int) < (W : Int) := by exact_mod_cast hW
  have hHp : (0 : Int) < (H : Int) := by exact_mod_cast hH
  have a1 : 0 ≤ ((p.1 : Int) + dx) % (W : Int) := Int.emod_nonneg _ hWz
  have a2 : ((p.1 : Int) + dx) % (W : Int) < (W : Int) := Int.emod_lt_of_pos _ hWp
  have a3 : 0 ≤ ((p.2 : Int) + dy) % (H : Int) := Int.emod_nonneg _ hHz
  have a4 : ((p.2 : Int) + dy) % (H : Int) < (H : Int) := Int.emod_lt_of_pos _ hHp
  have b1 : 0 ≤ ((x : Int) - dx) % (W : Int) := Int.emod_nonneg _ hWz
  have b3 : 0 ≤ ((y : Int) - dy) % (H : Int) := Int.emod_nonneg _ hHz
  have einvx := emod_shift_inv W dx p.1 x hp1 hx
  have einvy := emod_shift_inv H dy p.2 y hp2 hy
  unfold stepHits
  rw [dstOf_wrap_fit W hW dx p.1 hp1 hdx, dstOf_wrap_fit H hH dy p.2 hp2 hdy]
  constructor
  · rintro ⟨hs, -, hidx, hbit⟩
    refine ⟨hs, ?_, ?_⟩
    · have hd1 : (((p.1 : Int) + dx) % (W : Int)).toNat < W := by omega
      obtain ⟨hex, -⟩ := pix_index_inj W hW hd1 hx hidx.symm hbit.symm
      have hmx : ((p.1 : Int) + dx) % (W : Int) = (x : Int) := by omega
      have := einvx.mp hmx
      omega
    · have hd1 : (((p.1 : Int) + dx) % (W : Int)).toNat < W := by omega
      obtain ⟨-, hey⟩ := pix_index_inj W hW hd1 hx hidx.symm hbit.symm
      have hmy : ((p.2 : Int) + dy) % (H : Int) = (y : Int) := by omega
      have := einvy.mp hmy
      omega
  · rintro ⟨hs, h1, h2⟩
    have hmx : ((x : Int) - dx) % (W : Int) = (p.1 : Int) := by omega
    have hmy : ((y : Int) - dy) % (H : Int) = (p.2 : Int) := by omega
    have hux : ((p.1 : Int) + dx) % (W : Int) = (x : Int) := einvx.mpr hmx
    have huy : ((p.2 : Int) + dy) % (H : Int) = (y : Int) := einvy.mpr hmy
    have hex : (((p.1 : Int) + dx) % (W : Int)).toNat = x := by omega
    have hey : (((p.2 : Int) + dy) % (H : Int)).toNat = y := by omega
    exact ⟨hs, ⟨a1, a2, a3, a4⟩, by rw [hex, hey], by rw [hey]⟩

lemma shift_wrap_pixel (W H : Nat) (dx dy : Int) (src : Nat → Nat)
    (hW : 0 < W) (hH : 0 < H) (h8 : 8 ∣ H)
    (hdx : dx.natAbs + W ≤ 32768) (hdy : dy.natAbs + H ≤ 32768)
    (x y : Nat) (hx : x < W) (hy : y < H) :
    Nat.testBit (shiftGeneral W H dx dy true src (x + y / 8 * W)) (y % 8) =
    Nat.testBit
      (src ((((x : Int) - dx) % (W : Int)).toNat +
        (((y : Int) - dy) % (H : Int)).toNat / 8 * W))
      ((((y : Int) - dy) % (H : Int)).toNat % 8) := by
  unfold shiftGeneral
  have hWz : ((W : Int)) ≠ 0 := by exact_mod_cast hW.ne'
  have hHz : ((H : Int)) ≠ 0 := by exact_mod_cast hH.ne'
  have hu : (((x : Int) - dx) % (W : Int)).toNat < W := by
    have := Int.emod_nonneg ((x : Int) - dx) hWz
    have := Int.emod_lt_of_pos ((x : Int) - dx) (show (0 : Int) < (W : Int) by exact_mod_cast hW)
    omega
  have hv : (((y : Int) - dy) % (H : Int)).toNat < H := by
    have := Int.emod_nonneg ((y : Int) - dy) hHz
    have := Int.emod_lt_of_pos ((y : Int) - dy) (show (0 : Int) < (H : Int) by exact_mod_cast hH)
    omega
  apply bool_eq_of_iff
  rw [shift_fold_testBit]
  have hidx : x + y / 8 * W < bufSize W H := by
    have h1 : y / 8 < H / 8 := Nat.div_lt_div_of_lt_of_dvd h8 hy
    have h2 : y / 8 + 1 ≤ H / 8 := h1
    have h3 : x + y / 8 * W < (y / 8 + 1) * W := by
      have : (y / 8 + 1) * W = y / 8 * W + W := by ring
      omega
    have h4 : (y / 8 + 1) * W ≤ H / 8 * W := Nat.mul_le_mul_right W h2
    have h5 : H / 8 * W = W * (H / 8) := Nat.mul_comm _ _
    rw [bufSize, Nat.mul_div_assoc W h8]
    omega
  rw [if_pos hidx, Nat.zero_testBit]
  simp only [Bool.false_eq_true, false_or]
  constructor
  · rintro ⟨p, hp, hhit⟩
    obtain ⟨hmem1, hmem2⟩ := (mem_pixelPairs W H p).mp hp
    obtain ⟨hs, h1, h2⟩ :=
      (stepHits_wrap_iff W H dx dy src hW hH hdx hdy x y hx hy p hmem1 hmem2).mp hhit
    rw [← h1, ← h2]
    exact (shiftRight_and_one _ _).mp hs
  · intro hbit
    refine ⟨((((x : Int) - dx) % (W : Int)).toNat, (((y : Int) - dy) % (H : Int)).toNat),
      (mem_pixelPairs W H _).mpr ⟨hu, hv⟩, ?_⟩
    exact (stepHits_wrap_iff W H dx dy src hW hH hdx hdy x y hx hy _ hu hv).mpr
      ⟨(shiftRight_and_one _ _).mpr hbit, rfl, rfl⟩

lemma shiftFramebuffer_general_buffer (W H : Nat) (dx dy : Int) (s : DevState)
    (hnz : ¬(dx = 0 ∧ dy = 0)) (hsize : ¬(1024 < bufSize W H)) :
    (shiftFramebuffer W H dx dy true s).buffer =
      shiftGeneral W H dx dy true s.buffer := by
  rw [shiftFramebuffer, if_neg hnz, if_neg (by simp), if_neg hsize, markDirty_buffer]

lemma shiftGeneral_lt_256 (W H : Nat) (dx dy : Int) (src : Nat → Nat)
    (hsrc : ∀ i, src i < 256) : ∀ i, shiftGeneral W H dx dy true src i < 256 := by
  intro i
  unfold shiftGeneral
  refine shift_fold_lt_256 W H dx dy true src (pixelPairs W H) _ ?_ i
  intro j
  by_cases h : j < bufSize W H
  · simp [h]
  · simpa [h] using hsrc j

lemma emod_add_sub_cancel (W : Nat) (d : Int) (x : Nat) (hx : x < W) :
    ((((x : Int) + d) % (W : Int)) - d) % (W : Int) = (x : Int) := by
  rw [Int.sub_emod, Int.emod_emod_of_dvd _ dvd_rfl, ← Int.sub_emod, add_sub_cancel_right]
  exact Int.emod_eq_of_lt (by omega) (by exact_mod_cast hx)

lemma singleBit_testBit (k i b : Nat) :
    Nat.testBit (if i = k then 1 else 0) b = true ↔ i = k ∧ b = 0 := by
  by_cases h : i = k
  · rw [if_pos h]
    rw [show (1 : Nat) = 2 ^ 0 from rfl, Nat.testBit_two_pow]
    simp [h, eq_comm]
  · rw [if_neg h]
    simp [Nat.zero_testBit, h]

lemma shiftGeneral_single_96 (dx : Int) (src : Nat → Nat) (k e : Nat)
    (hsrc : ∀ i b, Nat.testBit (src i) b = true ↔ i = k ∧ b = 0)
    (hk : k < 96) (he : dstOf 96 dx true k = (e : Int)) (heW : e < 96) :
    ∀ i b, Nat.testBit (shiftGeneral 96 16 dx 0 true src i) b = true ↔ i = e ∧ b = 0 := by
  have hy0 : dstOf 16 (0 : Int) true 0 = 0 := by decide
  intro i b
  unfold shiftGeneral
  rw [shift_fold_testBit]
  constructor
  · rintro (hbit | ⟨p, hp, hhit⟩)
    · exfalso
      by_cases hlt : i < bufSize 96 16
      · rw [if_pos hlt, Nat.zero_testBit] at hbit
        exact absurd hbit (by simp)
      · rw [if_neg hlt] at hbit
        obtain ⟨hik, -⟩ := (hsrc i b).mp hbit
        rw [bufSize] at hlt
        omega
    · obtain ⟨p1, p2⟩ := p
      obtain ⟨hp1, hp2⟩ := (mem_pixelPairs 96 16 (p1, p2)).mp hp
      have hp1' : p1 < 96 := hp1
      have hp2' : p2 < 16 := hp2
      unfold stepHits at hhit
      obtain ⟨hs, hb4, hi, hb⟩ := hhit
      have hsbit := (shiftRight_and_one _ _).mp hs
      obtain ⟨hidxk, hbit0⟩ := (hsrc _ _).mp hsbit
      have hidxk2 : p1 + p2 / 8 * 96 = k := hidxk
      have hbit02 : p2 % 8 = 0 := hbit0
      have hp1k : p1 = k := by omega
      have hp20 : p2 = 0 := by omega
      have hi2 : i = (dstOf 96 dx true p1).toNat + (dstOf 16 0 true p2).toNat / 8 * 96 := hi
      have hb2 : b = (dstOf 16 0 true p2).toNat % 8 := hb
      rw [hp1k] at hi2
      rw [hp20] at hi2 hb2
      rw [he, hy0] at hi2
      rw [hy0] at hb2
      refine ⟨by omega, by omega⟩
  · rintro ⟨hie, hb0⟩
    right
    refine ⟨(k, 0), (mem_pixelPairs 96 16 (k, 0)).mpr ⟨hk, by omega⟩, ?_⟩
    have c1 : (src (k + 0 / 8 * 96) >>> (0 % 8)) &&& 1 = 1 := by
      apply (shiftRight_and_one _ _).mpr
      apply (hsrc _ _).mpr
      exact ⟨by omega, by decide⟩
    have c2 : 0 ≤ dstOf 96 dx true k := by
      rw [he]
      omega
    have c3 : dstOf 96 dx true k < (96 : Int) := by
      rw [he]
      exact_mod_cast heW
    have c4 : 0 ≤ dstOf 16 (0 : Int) true 0 := by
      rw [hy0]
    have c5 : dstOf 16 (0 : Int) true 0 < (16 : Int) := by
      rw [hy0]
      decide
    have c6 : i = (dstOf 96 dx true k).toNat + (dstOf 16 (0 : Int) true 0).toNat / 8 * 96 := by
      rw [hie, he, hy0]
      omega
    have c7 : b = (dstOf 16 (0 : Int) true 0).toNat % 8 := by
      rw [hb0, hy0]
      decide
    exact ⟨c1, ⟨c2, c3, c4, c5⟩, c6, c7⟩

lemma shift_roundtrip_pixel_aux (W H : Nat) (dx dy : Int) (src : Nat → Nat)
    (hW : 0 < W) (hH : 0 < H) (h8 : 8 ∣ H)
    (hdx : dx.natAbs + W ≤ 32768) (hdy : dy.natAbs + H ≤ 32768)
    (x y : Nat) (hx : x < W) (hy : y < H) :
    Nat.testBit
      (shiftGeneral W H (-dx) (-dy) true (shiftGeneral W H dx dy true src)
        (x + y / 8 * W)) (y % 8) =
    Nat.testBit (src (x + y / 8 * W)) (y % 8) := by
  have hWz : ((W : Int)) ≠ 0 := by exact_mod_cast hW.ne'
  have hHz : ((H : Int)) ≠ 0 := by exact_mod_cast hH.ne'
  have hdx2 : (-dx).natAbs + W ≤ 32768 := by omega
  have hdy2 : (-dy).natAbs + H ≤ 32768 := by omega
  rw [shift_wrap_pixel W H (-dx) (-dy) (shiftGeneral W H dx dy true src) hW hH h8
    hdx2 hdy2 x y hx hy]
  have hu : (((x : Int) - -dx) % (W : Int)).toNat < W := by
    have := Int.emod_nonneg ((x : Int) - -dx) hWz
    have := Int.emod_lt_of_pos ((x : Int) - -dx)
      (show (0 : Int) < (W : Int) by exact_mod_cast hW)
    omega
  have hv : (((y : Int) - -dy) % (H : Int)).toNat < H := by
    have := Int.emod_nonneg ((y : Int) - -dy) hHz
    have := Int.emod_lt_of_pos ((y : Int) - -dy)
      (show (0 : Int) < (H : Int) by exact_mod_cast hH)
    omega
  rw [shift_wrap_pixel W H dx dy src hW hH h8 hdx hdy _ _ hu hv]
  have hcx : ((((x : Int) - -dx) % (W : Int)).toNat : Int) = ((x : Int) + dx) % (W : Int) := by
    have h1 : 0 ≤ ((x : Int) - -dx) % (W : Int) := Int.emod_nonneg _ hWz
    have h2 : ((x : Int) - -dx) = ((x : Int) + dx) := by ring
    rw [← h2]
    omega
  have hcy : ((((y : Int) - -dy) % (H : Int)).toNat : Int) = ((y : Int) + dy) % (H : Int) := by
    have h1 : 0 ≤ ((y : Int) - -dy) % (H : Int) := Int.emod_nonneg _ hHz
    have h2 : ((y : Int) - -dy) = ((y : Int) + dy) := by ring
    rw [← h2]
    omega
  have hu2 : ((((((x : Int) - -dx) % (W : Int)).toNat : Int) - dx) % (W : Int)).toNat = x := by
    rw [hcx, emod_add_sub_cancel W dx x hx]
    omega
  have hv2 : ((((((y : Int) - -dy) % (H : Int)).toNat : Int) - dy) % (H : Int)).toNat = y := by
    rw [hcy, emod_add_sub_cancel H dy y hy]
    omega
  rw [hu2, hv2]

/-- C6 (amended): with wrap enabled, shifting the framebuffer by (dx, dy)
and then by (-dx, -dy) reproduces the original framebuffer contents byte
for byte, for every panel geometry whose height is a multiple of 8, every
framebuffer whose bytes are genuine uint8 values, and every offsets small
enough that the `int16_t` destination sums `src_x + dx` and `src_y + dy`
never overflow (`|dx| + width <= 32768` and `|dy| + height <= 32768`): a
zero shift and the 1024-byte scratch-guard case are no-ops on the buffer,
and on the general path the torus remap `(p + d) mod n` is then inverted
exactly by `(p - d) mod n`.  Beyond that bound the stored sum wraps and
the round trip genuinely fails (see the counterexample). -/
theorem shift_wrap_roundtrip (W H : Nat) (dx dy : Int) (s : DevState)
    (h8 : 8 ∣ H) (hdx : dx.natAbs + W ≤ 32768) (hdy : dy.natAbs + H ≤ 32768)
    (hbytes : ∀ i, s.buffer i < 256) (j : Nat) (hj : j < bufSize W H) :
    (shiftFramebuffer W H (-dx) (-dy) true
      (shiftFramebuffer W H dx dy true s)).buffer j = s.buffer j := by
  by_cases hzero : dx = 0 ∧ dy = 0
  · have hz2 : (-dx = 0 ∧ -dy = 0) := by omega
    rw [show shiftFramebuffer W H dx dy true s = s by rw [shiftFramebuffer, if_pos hzero]]
    rw [show shiftFramebuffer W H (-dx) (-dy) true s = s by rw [shiftFramebuffer, if_pos hz2]]
  · have hzero2 : ¬(-dx = 0 ∧ -dy = 0) := by omega
    by_cases hbig : 1024 < bufSize W H
    · rw [show shiftFramebuffer W H dx dy true s = s by
        rw [shiftFramebuffer, if_neg hzero, if_neg (by simp), if_pos hbig]]
      rw [show shiftFramebuffer W H (-dx) (-dy) true s = s by
        rw [shiftFramebuffer, if_neg hzero2, if_neg (by simp), if_pos hbig]]
    · have hW : 0 < W := by
        rcases Nat.eq_zero_or_pos W with h0 | h0
        · subst h0
          rw [bufSize] at hj
          simp at hj
        · exact h0
      have hH : 0 < H := by
        rcases Nat.eq_zero_or_pos H with h0 | h0
        · subst h0
          rw [bufSize] at hj
          simp at hj
        · exact h0
      rw [shiftFramebuffer_general_buffer W H (-dx) (-dy)
        (shiftFramebuffer W H dx dy true s) hzero2 hbig]
      rw [shiftFramebuffer_general_buffer W H dx dy s hzero hbig]
      apply Nat.eq_of_testBit_eq
      intro b
      by_cases hb : b < 8
      · have hjlt : j < W * (H / 8) := by
          rw [bufSize, Nat.mul_div_assoc W h8] at hj
          exact hj
        have hxx : j % W < W := Nat.mod_lt j hW
        have hpg : j / W < H / 8 := by
          refine (Nat.div_lt_iff_lt_mul hW).mpr ?_
          calc j < W * (H / 8) := hjlt
            _ = H / 8 * W := Nat.mul_comm _ _
        have hH8 : H / 8 * 8 = H := Nat.div_mul_cancel h8
        have hyH : j / W * 8 + b < H := by omega
        have hpix := shift_roundtrip_pixel_aux W H dx dy s.buffer hW hH h8 hdx hdy
          (j % W) (j / W * 8 + b) hxx hyH
        have hdiv : (j / W * 8 + b) / 8 = j / W := by omega
        have hmod : (j / W * 8 + b) % 8 = b := by omega
        rw [hdiv, hmod] at hpix
        have hidx : j % W + j / W * W = j := Nat.mod_add_div' j W
        rw [hidx] at hpix
        exact hpix
      · have hinner : ∀ i, shiftGeneral W H dx dy true s.buffer i < 256 :=
          shiftGeneral_lt_256 W H dx dy s.buffer hbytes
        have houter : ∀ i, shiftGeneral W H (-dx) (-dy) true
            (shiftGeneral W H dx dy true s.buffer) i < 256 :=
          shiftGeneral_lt_256 W H (-dx) (-dy) _ hinner
        have h28 : (256 : Nat) ≤ 2 ^ b := by
          calc (256 : Nat) = 2 ^ 8 := by norm_num
            _ ≤ 2 ^ b := Nat.pow_le_pow_right (by omega) (by omega)
        rw [Nat.testBit_lt_two_pow (lt_of_lt_of_le (houter j) h28),
            Nat.testBit_lt_two_pow (lt_of_lt_of_le (hbytes j) h28)]

/-- Concrete instance of the shift round trip: on an 8x8 panel with one
nonzero byte, shifting by (1, 2) with wrap and back restores byte 0. -/
theorem shift_wrap_roundtrip_witness :
    (shiftFramebuffer 8 8 (-(1 : Int)) (-(2 : Int)) true
      (shiftFramebuffer 8 8 1 2 true roundtripDemo)).buffer 0 = roundtripDemo.buffer 0 :=
  shift_wrap_roundtrip 8 8 1 2 roundtripDemo (by decide) (by decide) (by decide)
    (fun i => by
      show (if i = 0 then 170 else 0) < 256
      split <;> omega) 0 (by decide)

/-- C6 counterexample to the original claim: on a real 96x16 panel with
pixel (18, 0) set, shifting by dx = 32767 (a legal `int16_t` offset) with
wrap and then by -32767 does not restore the framebuffer.  The forward
pass stores `src_x + dx = 18 + 32767 = 32785` into `int16_t dst_x`, which
wraps to -32751; the double modulo then lands the pixel at x = 81 instead
of 32785 mod 96 = 49.  The backward pass maps 81 to (81 - 32767) mod 96 =
50, so byte 18 ends up 0 instead of 1. -/
theorem shift_wrap_roundtrip_truncation_cex :
    (shiftFramebuffer 96 16 (-32767) 0 true
      (shiftFramebuffer 96 16 32767 0 true shiftCexState)).buffer 18 ≠
      shiftCexState.buffer 18 := by
  have h2 := shiftFramebuffer_general_buffer 96 16 (-32767) 0
    (shiftFramebuffer 96 16 32767 0 true shiftCexState) (by decide) (by decide)
  have h1 := shiftFramebuffer_general_buffer 96 16 32767 0 shiftCexState
    (by decide) (by decide)
  rw [h2, h1]
  have hs0 : ∀ i b, Nat.testBit (shiftCexState.buffer i) b = true ↔ i = 18 ∧ b = 0 := by
    intro i b
    show Nat.testBit (if i = 18 then 1 else 0) b = true ↔ _
    exact singleBit_testBit 18 i b
  have hg1 := shiftGeneral_single_96 32767 shiftCexState.buffer 18 81 hs0
    (by decide) (by decide) (by decide)
  have hg2 := shiftGeneral_single_96 (-32767)
    (shiftGeneral 96 16 32767 0 true shiftCexState.buffer) 81 50 hg1
    (by decide) (by decide) (by decide)
  have hval : shiftGeneral 96 16 (-32767) 0 true
      (shiftGeneral 96 16 32767 0 true shiftCexState.buffer) 18 = 0 := by
    apply Nat.eq_of_testBit_eq
    intro b
    rw [Nat.zero_testBit]
    cases hbit : Nat.testBit (shiftGeneral 96 16 (-32767) 0 true
        (shiftGeneral 96 16 32767 0 true shiftCexState.buffer) 18) b
    · rfl
    · exact absurd ((hg2 18 b).mp hbit).1 (by decide)
  rw [hval]
  decide

end SSD1306

